import Mathlib

/-!
Verification of the market-analyzer backend (`main.py`).

The file shallowly embeds the single request handler `analyze_ticker` in
`main.py` together with the parts of its library calls
(`requests`, `pandas`, `pandas_ta`, `prophet`, FastAPI serialization) that
the specification talks about.  Dates are represented by their civil day
number (an order- and day-arithmetic-preserving encoding of `YYYY-MM-DD`
strings, computed by `parseDate` below exactly as a proleptic-Gregorian day
count); machine floats are represented by `ℚ` (the arithmetic in scope is
exact in the source: the claims under study never depend on rounding), with
`Option ℚ` modelling a float-or-NaN cell of a pandas column.
-/

set_option linter.unusedVariables false

/-- A parsed JSON value, as returned by `response.json()`. -/
inductive Json where
  | obj (fields : List (String × Json))
  | arr (elems : List Json)
  | str (s : String)
  | num (q : ℚ)
  | bool (b : Bool)
  | null

/-- The Python exception classes that the embedded code can raise and that
escape the handler uncaught (FastAPI turns them into a 500 response). -/
inductive PyErr where
  | attributeError
  | typeError
  | keyError
  | valueError
deriving DecidableEq

/-- The JSON object stored under the provider's time-series key: a mapping
from date string to a mapping of field label to value. -/
abbrev RawJson := List (String × Json)

/-- First-match association-list lookup, modelling a Python dict access on a
dict built from a JSON object (provider objects have no duplicate keys). -/
def lookupAssoc {α : Type} (k : String) : List (String × α) → Option α
  | [] => none
  | p :: rest => if p.1 = k then some p.2 else lookupAssoc k rest

/-- Digits of a numeral to the `Nat` they denote. -/
def natOfDigits (cs : List Char) : Nat :=
  cs.foldl (fun n c => 10 * n + (c.toNat - 48)) 0

/-- Parse an unsigned decimal numeral (`"123"`, `"1.5"`, `".5"`, `"5."`),
the forms `pd.to_numeric` accepts for the provider's values
(exponent forms, which the provider never emits, are out of scope). -/
def parseUnsigned (cs : List Char) : Option ℚ :=
  match cs.span Char.isDigit with
  | (ds, []) => if ds.isEmpty then none else some (natOfDigits ds : ℚ)
  | (ds, '.' :: fs) =>
      if fs.all Char.isDigit && (!ds.isEmpty || !fs.isEmpty) then
        some ((natOfDigits ds : ℚ) + (natOfDigits fs : ℚ) / (10 : ℚ) ^ fs.length)
      else none
  | _ => none

/-- Parse a signed decimal numeral, as `pd.to_numeric` does on a string. -/
def parseNum (s : String) : Option ℚ :=
  match s.toList with
  | '-' :: rest => (parseUnsigned rest).map (fun q => -q)
  | '+' :: rest => parseUnsigned rest
  | cs => parseUnsigned cs

/-- Leap-year test of the Gregorian calendar. -/
def isLeapYear (y : Nat) : Bool :=
  (y % 4 == 0 && y % 100 != 0) || y % 400 == 0

/-- Number of days of month `m` of year `y`. -/
def daysInMonth (y m : Nat) : Nat :=
  if m = 2 then (if isLeapYear y then 29 else 28)
  else if m = 4 || m = 6 || m = 9 || m = 11 then 30
  else 31

/-- Civil day number of a Gregorian date (days since 0000-03-01), so that
consecutive calendar days differ by exactly 1 and the order of day numbers
is the calendar order.  This is the meaning `pd.to_datetime` assigns to a
`YYYY-MM-DD` index entry. -/
def daysFromCivil (y m d : Nat) : Nat :=
  let y' := if m ≤ 2 then y - 1 else y
  let era := y' / 400
  let yoe := y' % 400
  let mp := if m ≤ 2 then m + 9 else m - 3
  let doy := (153 * mp + 2) / 5 + (d - 1)
  let doe := yoe * 365 + yoe / 4 - yoe / 100 + doy
  era * 146097 + doe

/-- Split a character list into the dash-separated groups, the shape test
`pd.to_datetime` applies to an ISO date string. -/
def splitDash : List Char → List (List Char)
  | [] => [[]]
  | c :: cs =>
      if c = '-' then [] :: splitDash cs
      else
        match splitDash cs with
        | [] => [[c]]
        | g :: gs => (c :: g) :: gs

/-- Parse a provider date string of the ISO `YYYY-MM-DD` shape into its
civil day number, rejecting calendar-invalid dates; this is the slice of
`pd.to_datetime`'s behavior the provider's index exercises. -/
def parseDate (s : String) : Option Nat :=
  match splitDash s.toList with
  | [ys, ms, ds] =>
      if ys.all Char.isDigit && ms.all Char.isDigit && ds.all Char.isDigit
          && !ys.isEmpty && !ms.isEmpty && !ds.isEmpty then
        let y := natOfDigits ys
        let m := natOfDigits ms
        let d := natOfDigits ds
        if 1 ≤ m && m ≤ 12 && 1 ≤ d && d ≤ daysInMonth y m && 1 ≤ y then
          some (daysFromCivil y m d)
        else none
      else none
  | _ => none

/-- The numeric table the handler works on after `pd.to_numeric` and
`pd.to_datetime`: a column-name list and one row per date, a row holding
its day number and one `Option ℚ` cell per column (`none` is NaN). -/
structure NumTable where
  cols : List String
  rows : List (Nat × List (Option ℚ))
deriving DecidableEq

/-- The column rename of `main.py` lines 53-57: `df.rename(columns={...})`
maps the six provider labels to canonical names and leaves every other
label unchanged. -/
def renameMap (c : String) : String :=
  if c = "1. open" then "open"
  else if c = "2. high" then "high"
  else if c = "3. low" then "low"
  else if c = "4. close" then "close"
  else if c = "5. adjusted close" then "adj_close"
  else if c = "6. volume" then "volume"
  else c

/-- The six provider field labels of the upstream contract. -/
def sixLabels : List String :=
  ["1. open", "2. high", "3. low", "4. close", "5. adjusted close", "6. volume"]

/-- First-occurrence deduplication with an explicit seen-set accumulator. -/
def dedupFirstAux (seen : List String) : List String → List String
  | [] => []
  | x :: xs =>
      if seen.contains x then dedupFirstAux seen xs
      else x :: dedupFirstAux (x :: seen) xs

/-- First-occurrence deduplication, the column order
`pd.DataFrame.from_dict(..., orient="index")` produces from the union of
the row mappings' keys. -/
def dedupFirst (l : List String) : List String := dedupFirstAux [] l

/-- Checks the rows of the raw mapping and extracts their field lists;
`pd.DataFrame.from_dict(..., orient="index")` walks the nested dicts and a
non-mapping row makes its nested-dict path fail with an AttributeError
(the all-scalar fallback orientation is not modelled: no claim reaches it,
and such a request still dies at the indicator step). -/
def innerRows : RawJson → Except PyErr (List (String × List (String × Json)))
  | [] => .ok []
  | (k, Json.obj kvs) :: rest => (innerRows rest).map (fun l => (k, kvs) :: l)
  | _ :: _ => .error .attributeError

/-- `pd.to_numeric` on one cell: a missing field is NaN and stays NaN, a
numeric string parses, a non-numeric string raises ValueError, a number
passes through, `None` becomes NaN, a bool casts, nested data raises. -/
def numCell : Option Json → Except PyErr (Option ℚ)
  | none => .ok none
  | some (Json.str s) =>
      match parseNum s with
      | some q => .ok (some q)
      | none => .error .valueError
  | some (Json.num q) => .ok (some q)
  | some Json.null => .ok none
  | some (Json.bool b) => .ok (some (if b then 1 else 0))
  | some _ => .error .typeError

/-- `df.apply(pd.to_numeric)` over the cells of one row. -/
def numCells : List (Option Json) → Except PyErr (List (Option ℚ))
  | [] => .ok []
  | c :: cs =>
      match numCell c with
      | .error e => .error e
      | .ok q => (numCells cs).map (fun l => q :: l)

/-- `df.apply(pd.to_numeric)` over all rows. -/
def numRows : List (String × List (Option Json)) → Except PyErr (List (String × List (Option ℚ)))
  | [] => .ok []
  | r :: rs =>
      match numCells r.2 with
      | .error e => .error e
      | .ok cells => (numRows rs).map (fun l => (r.1, cells) :: l)

/-- `pd.to_datetime(df.index)` over all rows: each index string is parsed
to its day number; an unparseable string raises ValueError. -/
def dateRows : List (String × List (Option ℚ)) → Except PyErr (List (Nat × List (Option ℚ)))
  | [] => .ok []
  | r :: rs =>
      match parseDate r.1 with
      | none => .error .valueError
      | some d => (dateRows rs).map (fun l => (d, r.2) :: l)

/-- Column list of `pd.DataFrame.from_dict(..., orient="index")`: the union
of all rows' field labels, in first-seen order. -/
def rawColsFrom (rkv : List (String × List (String × Json))) : List String :=
  dedupFirst (rkv.map (fun r => r.2.map (fun q => q.1))).flatten

/-- Cell grid of `pd.DataFrame.from_dict(..., orient="index")`: one row per
date, one cell per column, a field missing from a row being NaN. -/
def srowsFrom (rkv : List (String × List (String × Json))) :
    List (String × List (Option Json)) :=
  rkv.map (fun r => (r.1, (rawColsFrom rkv).map (fun c => lookupAssoc c r.2)))

/-- The Table Normalizer, `main.py` lines 52-60: build the table from the
raw mapping (`pd.DataFrame.from_dict(data, orient="index")`), rename the
six provider labels, coerce every cell with `pd.to_numeric`, parse the
index with `pd.to_datetime`, and sort ascending by date
(`df.sort_index(ascending=True)`). -/
def normalizeTable (data : RawJson) : Except PyErr NumTable :=
  match innerRows data with
  | .error e => .error e
  | .ok rkv =>
    match numRows (srowsFrom rkv) with
    | .error e => .error e
    | .ok nrows =>
      match dateRows nrows with
      | .error e => .error e
      | .ok drows =>
          .ok ⟨(rawColsFrom rkv).map renameMap,
               List.insertionSort (fun a b => a.1 ≤ b.1) drows⟩

/-- Outcome of the outbound provider call of `main.py` lines 42-45, seen from
the handler: either the transport raised before a response existed
(connection error, timeout), or a response arrived with an HTTP status and a
body; `none` stands for a body that is not decodable JSON (in which case
`response.json()` raises `requests.exceptions.JSONDecodeError`, a
`RequestException` subclass). -/
inductive ProviderResult where
  | connError (excText : String)
  | response (status : Nat) (body : Option Json)

/-- Result of the fetch step (`main.py` lines 42-49): the extracted
time-series JSON value, an `HTTPException` with status code and detail, or a
Python exception escaping uncaught. -/
inductive FetchOutcome where
  | fetchOk (data : Json)
  | httpError (code : Nat) (detail : String)
  | pythonError (e : PyErr)

/-- `response.raise_for_status()` raises exactly for statuses 400-599. -/
def raiseForStatusRaises (s : Nat) : Bool :=
  decide (400 ≤ s) && decide (s < 600)

/-- Text of the `requests.HTTPError` built by `raise_for_status`
(abstracted: only its presence inside the detail matters here). -/
def statusErrText (s : Nat) : String :=
  "HTTP error " ++ toString s ++ " for url"

/-- Text of the JSON-decode failure exception (abstracted). -/
def jsonDecodeErrText : String := "Expecting value"

/-- The provider key the handler extracts, `main.py` line 45. -/
def tsKey : String := "Time Series (Daily)"

/-- Detail string of the 503 exit, `main.py` line 47. -/
def providerDetail (excText : String) : String :=
  "Error fetching data from provider: " ++ excText

/-- Detail string of the 404 exit, `main.py` line 49. -/
def notFoundDetail (ticker : String) : String :=
  "Could not find data for ticker: " ++ ticker ++ ". Invalid ticker or API issue."

/-- The fetch step, `main.py` lines 42-49: `requests.get`,
`raise_for_status`, `response.json()["Time Series (Daily)"]`, with
`except RequestException` mapped to a 503 `HTTPException` and
`except KeyError` to a 404.  Subscripting a non-object JSON body raises
TypeError, which neither handler catches. -/
def fetchStep (ticker : String) : ProviderResult → FetchOutcome
  | .connError excText => .httpError 503 (providerDetail excText)
  | .response s body =>
      if raiseForStatusRaises s then
        .httpError 503 (providerDetail (statusErrText s))
      else
        match body with
        | none => .httpError 503 (providerDetail jsonDecodeErrText)
        | some (Json.obj fields) =>
            match lookupAssoc tsKey fields with
            | some v => .fetchOk v
            | none => .httpError 404 (notFoundDetail ticker)
        | some _ => .pythonError .typeError

/-- The import list of `main.py` lines 2-7: `os`, `pandas`, `requests`,
`fastapi` (with its CORS middleware), and `prophet`.  `pandas_ta` is not
imported, and it is importing `pandas_ta` that registers the `.ta`
DataFrame accessor used on lines 64-65. -/
def mainImports : List String :=
  ["os", "pandas", "requests", "fastapi", "fastapi.middleware.cors", "prophet"]

/-- Difference of two float-or-NaN cells; NaN propagates. -/
def optSub : Option ℚ → Option ℚ → Option ℚ
  | some a, some b => some (a - b)
  | _, _ => none

/-- Exponential recurrence of `pandas.Series.ewm(span=n, adjust=False)`
after its seed: each output is `a * x + (1 - a) * previous`. -/
def emaRec (a : ℚ) : ℚ → List ℚ → List ℚ
  | _, [] => []
  | e, x :: xs => (a * x + (1 - a) * e) :: emaRec a (a * x + (1 - a) * e) xs

/-- Simple moving average used to seed `pandas_ta.ema`. -/
def sma (xs : List ℚ) : ℚ := xs.sum / (xs.length : ℚ)

/-- `pandas_ta.ema(close, length=n)` with its default SMA seed: the first
`n - 1` outputs are NaN, output `n - 1` is the SMA of the first `n` values,
and later outputs follow the span-`n` `ewm(adjust=False)` recurrence; a
series shorter than the window is all NaN. -/
def ema (n : Nat) (xs : List ℚ) : List (Option ℚ) :=
  if xs.length < n ∨ n = 0 then xs.map (fun _ => none)
  else
    List.replicate (n - 1) (none : Option ℚ)
      ++ some (sma (xs.take n))
        :: (emaRec (2 / ((n : ℚ) + 1)) (sma (xs.take n)) (xs.drop n)).map some

/-- MACD line of `pandas_ta.macd(fast=12, slow=26)`: EMA(12) minus EMA(26)
of the close series, NaN where either EMA is NaN. -/
def macdLine (cl : List ℚ) : List (Option ℚ) :=
  List.zipWith optSub (ema 12 cl) (ema 26 cl)

/-- Number of leading NaN entries of a column, locating
`first_valid_index()`. -/
def leadingNones : List (Option ℚ) → Nat
  | none :: rest => leadingNones rest + 1
  | _ => 0

/-- MACD signal of `pandas_ta.macd(..., signal=9)`, realigned to the full
index: EMA(9) of the MACD line from its first valid index on, NaN before. -/
def macdSignalFull (cl : List ℚ) : List (Option ℚ) :=
  List.replicate (leadingNones (macdLine cl)) (none : Option ℚ)
    ++ ema 9 ((macdLine cl).drop (leadingNones (macdLine cl))).reduceOption

/-- MACD histogram of `pandas_ta.macd`: the line minus the signal,
computed cellwise (`histogram = macd - signalma` in pandas_ta). -/
def macdHist (cl : List ℚ) : List (Option ℚ) :=
  List.zipWith optSub (macdLine cl) (macdSignalFull cl)

/-- First difference `close.diff()`: NaN first, then each value minus its
predecessor. -/
def diffSeries (cl : List ℚ) : List (Option ℚ) :=
  none :: List.zipWith (fun a b => some (b - a)) cl cl.tail

/-- Gains of `pandas_ta.rsi`: negative differences clipped to 0. -/
def clampPos (x : Option ℚ) : Option ℚ :=
  x.map (fun v => if v < 0 then 0 else v)

/-- Losses of `pandas_ta.rsi`: positive differences clipped to 0. -/
def clampNeg (x : Option ℚ) : Option ℚ :=
  x.map (fun v => if 0 < v then 0 else v)

/-- Weighted-sum recursion of `pandas.Series.ewm(alpha=1/n, adjust=True,
min_periods=n).mean()` over a float-or-NaN series: numerator and
denominator decay by `w = 1 - alpha` each step, a NaN input adds nothing,
and the output is NaN until `n` observations were seen. -/
def rmaAux (w : ℚ) (minp : Nat) : ℚ → ℚ → Nat → List (Option ℚ) → List (Option ℚ)
  | _, _, _, [] => []
  | num, den, cnt, none :: xs =>
      none :: rmaAux w minp (w * num) (w * den) cnt xs
  | num, den, cnt, some v :: xs =>
      (if minp ≤ cnt + 1 then some ((w * num + v) / (w * den + 1)) else none)
        :: rmaAux w minp (w * num + v) (w * den + 1) (cnt + 1) xs

/-- `pandas_ta.rma(series, length=n)`, Wilder's moving average. -/
def rma (n : Nat) (xs : List (Option ℚ)) : List (Option ℚ) :=
  rmaAux (1 - 1 / (n : ℚ)) n 0 0 0 xs

/-- `pandas_ta.rsi(close, length=n)`: 100 times the RMA of the gains over
the sum of the RMAs of gains and of absolute losses (the division by an
exact zero on a constant series, where pandas yields NaN, is outside the
claims under study). -/
def rsiSeries (n : Nat) (cl : List ℚ) : List (Option ℚ) :=
  List.zipWith
    (fun p q =>
      match p, q with
      | some p, some q => some (100 * p / (p + |q|))
      | _, _ => none)
    (rma n ((diffSeries cl).map clampPos))
    (rma n ((diffSeries cl).map clampNeg))

/-- Names of the columns `df.ta.rsi(append=True)` and
`df.ta.macd(append=True)` append, in append order. -/
def indicatorCols : List String :=
  ["RSI_14", "MACD_12_26_9", "MACDh_12_26_9", "MACDs_12_26_9"]

/-- The close column of the normalized table as a plain series (provider
rows always carry a numeric close; a missing close cell, which cannot
arise from a well-formed payload, is read as 0 here rather than modelling
pandas NaN propagation inside the indicator windows). -/
def closeSeries (t : NumTable) : List ℚ :=
  match t.cols.indexOf? "close" with
  | some i => t.rows.map (fun r => ((r.2.get? i).join).getD 0)
  | none => []

/-- Effect of `df.ta.rsi(append=True); df.ta.macd(append=True)` on the
frame, when the accessor exists: the four indicator columns are appended
positionally, leaving the existing columns, row order and row count
untouched. -/
def augmentIndicators (t : NumTable) : NumTable :=
  { cols := t.cols ++ indicatorCols,
    rows := t.rows.mapIdx (fun i r =>
      (r.1, r.2 ++ [(rsiSeries 14 (closeSeries t)).getD i none,
                    (macdLine (closeSeries t)).getD i none,
                    (macdHist (closeSeries t)).getD i none,
                    (macdSignalFull (closeSeries t)).getD i none])) }

/-- The indicator step, `main.py` lines 64-65: looking up `df.ta` finds the
accessor only if `pandas_ta` was imported somewhere; otherwise the
attribute access itself raises AttributeError. -/
def indicatorStep (imports : List String) (t : NumTable) : Except PyErr NumTable :=
  if imports.contains "pandas_ta" then .ok (augmentIndicators t)
  else .error .attributeError

/-- Largest history date, `self.history_dates.max()` inside Prophet. -/
def lastDate (l : List Nat) : Nat := l.foldl max 0

/-- `Prophet.make_future_dataframe(periods, freq="D",
include_history=True)`: the sorted deduplicated history dates followed by
the `periods` consecutive calendar days after the last history date. -/
def makeFutureDates (histDs : List Nat) (periods : Nat) : List Nat :=
  (List.insertionSort (fun a b => a ≤ b) histDs).dedup
    ++ (List.range periods).map (fun i => lastDate histDs + 1 + i)

/-- A JSON-serializable record value of the response: the float NaN is its
own value (`jnan`), distinct from an explicit JSON null (`jnull`). -/
inductive JVal where
  | jnum (q : ℚ)
  | jnan
  | jnull
  | jdate (d : Nat)
  | jstr (s : String)
deriving DecidableEq

/-- `DataFrame.to_dict(orient="records")` keeps a NaN cell as the float
NaN; a numeric cell stays a number. -/
def cellToJVal : Option ℚ → JVal
  | some q => JVal.jnum q
  | none => JVal.jnan

/-- One record of `df.reset_index().to_dict(orient="records")`
(`main.py` line 79): the unnamed date index becomes a column named
`"index"`, followed by the value columns in order. -/
def recordOfRow (cols : List String) (r : Nat × List (Option ℚ)) : List (String × JVal) :=
  ("index", JVal.jdate r.1) :: List.zip cols (r.2.map cellToJVal)

/-- The historical record list of the response, `main.py` line 79. -/
def recordsOf (t : NumTable) : List (List (String × JVal)) :=
  t.rows.map (recordOfRow t.cols)

/-- One row of `forecast[["ds", "yhat", "yhat_lower", "yhat_upper"]]`. -/
structure ForecastRow where
  ds : Nat
  yhat : ℚ
  yhat_lower : ℚ
  yhat_upper : ℚ
deriving DecidableEq

/-- One record of the forecast list of the response, `main.py` line 80. -/
def forecastRecord (fr : ForecastRow) : List (String × JVal) :=
  [("ds", JVal.jdate fr.ds), ("yhat", JVal.jnum fr.yhat),
   ("yhat_lower", JVal.jnum fr.yhat_lower), ("yhat_upper", JVal.jnum fr.yhat_upper)]

/-- The forecast record list of the response, `main.py` line 80. -/
def forecastRecords (l : List ForecastRow) : List (List (String × JVal)) :=
  l.map forecastRecord

/-- `model.predict(future)` evaluated through an opaque fitted model `pv`
(the spec treats the fit as an external capability): one forecast row per
future date, carrying the model's point forecast and bounds. -/
def forecastRows (pv : Nat → ℚ × ℚ × ℚ) (ds : List Nat) : List ForecastRow :=
  ds.map (fun d => ⟨d, (pv d).1, (pv d).2.1, (pv d).2.2⟩)

/-- Terminal outcome of one request to the handler: a 200 body with the two
record lists, an `HTTPException` body, or an uncaught Python exception
(which FastAPI reports as a 500, never as a 200). -/
inductive HandlerResult where
  | success (hist : List (List (String × JVal))) (fc : List (List (String × JVal)))
  | httpError (code : Nat) (detail : String)
  | pythonError (e : PyErr)

/-- Whether a handler outcome is the 200 success exit. -/
def isSuccess : HandlerResult → Bool
  | HandlerResult.success _ _ => true
  | _ => false

/-- `main.py` lines 52-81 after a successful fetch: normalize, compute
indicators, forecast 90 days ahead, and assemble the two record lists. -/
def processData (imports : List String) (pv : Nat → ℚ × ℚ × ℚ)
    (data : RawJson) : HandlerResult :=
  match normalizeTable data with
  | .error e => .pythonError e
  | .ok t =>
      match indicatorStep imports t with
      | .error e => .pythonError e
      | .ok aug =>
          .success (recordsOf aug)
            (forecastRecords
              (forecastRows pv (makeFutureDates (aug.rows.map (fun r => r.1)) 90)))

/-- The whole request handler `analyze_ticker`: the fetch step followed by
the processing pipeline; `pd.DataFrame.from_dict` on a non-mapping
time-series value fails looking up `.values` (AttributeError). -/
def analyzeTicker (imports : List String) (pv : Nat → ℚ × ℚ × ℚ)
    (ticker : String) (pr : ProviderResult) : HandlerResult :=
  match fetchStep ticker pr with
  | .httpError c d => .httpError c d
  | .pythonError e => .pythonError e
  | .fetchOk (Json.obj fields) => processData imports pv fields
  | .fetchOk _ => .pythonError .attributeError

/-- Whether an outcome of a fallible step is a non-raising one. -/
def exceptOk {ε α : Type} : Except ε α → Bool
  | .ok _ => true
  | .error _ => false

/-- A cell value on which `pd.to_numeric` does not raise: absent, a numeric
string, a number, `null`, or a bool. -/
def goodCell : Option Json → Bool
  | none => true
  | some (Json.str s) => (parseNum s).isSome
  | some (Json.num _) => true
  | some Json.null => true
  | some (Json.bool _) => true
  | some _ => false

/-- Well-formedness of a raw provider mapping in the sense of the spec's
normalizer contract: every date key is an ISO calendar date, every row is
an object, and every value is numeric-parsable. -/
def wellFormedPayload (data : RawJson) : Bool :=
  data.all (fun p =>
    (parseDate p.1).isSome &&
      match p.2 with
      | Json.obj kvs => kvs.all (fun q => goodCell (some q.2))
      | _ => false)

/-- Whether every field label of the raw mapping is one of the six labels
of the upstream provider contract. -/
def providerLabelsOnly (data : RawJson) : Bool :=
  data.all (fun p =>
    match p.2 with
    | Json.obj kvs => kvs.all (fun q => sixLabels.contains q.1)
    | _ => true)

/-- The two-row payload of the spec's scenario (provider order,
newest first). -/
def scenarioPayload : RawJson :=
  [("2024-01-03", Json.obj [("1. open", Json.str "11"), ("2. high", Json.str "13"),
      ("3. low", Json.str "10"), ("4. close", Json.str "12"),
      ("5. adjusted close", Json.str "12"), ("6. volume", Json.str "1100")]),
   ("2024-01-02", Json.obj [("1. open", Json.str "10"), ("2. high", Json.str "12"),
      ("3. low", Json.str "9"), ("4. close", Json.str "11"),
      ("5. adjusted close", Json.str "11"), ("6. volume", Json.str "1000")])]

/-- The Normalized Table of the scenario payload (2024-01-02 is civil day
739192 and 2024-01-03 is 739193). -/
def scenarioTable : NumTable :=
  ⟨["open", "high", "low", "close", "adj_close", "volume"],
   [(739192, [some 10, some 12, some 9, some 11, some 11, some 1000]),
    (739193, [some 11, some 13, some 10, some 12, some 12, some 1100])]⟩

/-- A payload whose close field holds a non-numeric string. -/
def badCellPayload : RawJson :=
  [("2024-01-02", Json.obj [("1. open", Json.str "10"), ("2. high", Json.str "12"),
      ("3. low", Json.str "9"), ("4. close", Json.str "abc"),
      ("5. adjusted close", Json.str "11"), ("6. volume", Json.str "1000")])]

/-- A payload carrying a seventh, unexpected provider field. -/
def extraFieldPayload : RawJson :=
  [("2024-01-02", Json.obj [("1. open", Json.str "10"), ("2. high", Json.str "12"),
      ("3. low", Json.str "9"), ("4. close", Json.str "11"),
      ("5. adjusted close", Json.str "11"), ("6. volume", Json.str "1000"),
      ("7. dividend", Json.str "0.05")])]

/-- A one-row table with an indicator warm-up NaN cell. -/
def warmupTable : NumTable :=
  ⟨["close", "RSI_14"], [(739192, [some 11, none])]⟩

/-- A constant 34-day close series (long enough for every MACD window). -/
def constClose : List ℚ := List.replicate 34 10

/-- A trivial fitted forecast model, usable wherever the opaque model
parameter must be instantiated. -/
def pvZero : Nat → ℚ × ℚ × ℚ := fun _ => (0, 0, 0)

/-! Helper lemmas. -/

instance relTableRowTotal :
    IsTotal (Nat × List (Option ℚ)) (fun a b => a.1 ≤ b.1) :=
  ⟨fun a b => Nat.le_total a.1 b.1⟩

instance relTableRowTrans :
    IsTrans (Nat × List (Option ℚ)) (fun a b => a.1 ≤ b.1) :=
  ⟨fun _ _ _ h1 h2 => Nat.le_trans h1 h2⟩

theorem get?_zipWith_eq {α β γ : Type} (f : α → β → γ) :
    ∀ (l1 : List α) (l2 : List β) (i : Nat),
      (List.zipWith f l1 l2).get? i
        = (l1.get? i).bind (fun a => (l2.get? i).map (fun b => f a b)) := by
  intro l1
  induction l1 with
  | nil => intro l2 i; cases l2 <;> cases i <;> simp
  | cons a t ih =>
      intro l2 i
      cases l2 with
      | nil => cases i <;> simp
      | cons b t2 =>
          cases i with
          | zero => simp
          | succ n => simpa using ih t2 n

theorem exceptMap_ok {ε α β : Type} (f : α → β) (e : Except ε α) (b : β) :
    e.map f = .ok b ↔ ∃ a, e = .ok a ∧ b = f a := by
  cases e with
  | error err => simp [Except.map]
  | ok a => simp [Except.map, eq_comm]

theorem forall2_map_eq {α β γ : Type} {R : α → β → Prop} {f : α → γ} {g : β → γ}
    (hfg : ∀ a b, R a b → f a = g b) :
    ∀ {l : List α} {l' : List β}, List.Forall₂ R l l' → l.map f = l'.map g := by
  intro l l' h
  induction h with
  | nil => rfl
  | cons hab _ ih => simp [hfg _ _ hab, ih]

theorem forall2_mem_right {α β : Type} {R : α → β → Prop} :
    ∀ {l : List α} {l' : List β}, List.Forall₂ R l l' → ∀ b ∈ l', ∃ a ∈ l, R a b := by
  intro l l' h
  induction h with
  | nil => intro b hb; cases hb
  | cons hab _ ih =>
      intro b hb
      rcases List.mem_cons.mp hb with h1 | h1
      · exact ⟨_, List.mem_cons_self _ _, h1 ▸ hab⟩
      · rcases ih b h1 with ⟨a, ha, hr⟩
        exact ⟨a, List.mem_cons_of_mem _ ha, hr⟩

theorem filterMap_eq_of_map_some {α β : Type} (f : α → Option β) :
    ∀ (l1 : List α) (l2 : List β), l1.map f = l2.map some → l1.filterMap f = l2 := by
  intro l1
  induction l1 with
  | nil => intro l2 h; cases l2 <;> simp_all
  | cons a t ih =>
      intro l2 h
      cases l2 with
      | nil => simp_all
      | cons b t2 =>
          simp only [List.map_cons, List.cons.injEq] at h
          simp [List.filterMap_cons, h.1, ih t2 h.2]

theorem pairwise_lt_of_le_of_nodup {l : List Nat}
    (h1 : l.Pairwise (fun a b => a ≤ b)) (h2 : l.Nodup) :
    l.Pairwise (fun a b => a < b) :=
  (h1.and h2).imp (fun h => lt_of_le_of_ne h.1 h.2)

theorem foldl_max_init_le : ∀ (l : List Nat) (a : Nat), a ≤ l.foldl max a := by
  intro l
  induction l with
  | nil => intro a; exact Nat.le_refl a
  | cons x t ih =>
      intro a
      exact Nat.le_trans (Nat.le_max_left a x) (ih (max a x))

theorem le_lastDate : ∀ (l : List Nat) (x : Nat), x ∈ l → x ≤ lastDate l := by
  have haux : ∀ (l : List Nat) (a x : Nat), x ∈ l → x ≤ l.foldl max a := by
    intro l
    induction l with
    | nil => intro a x hx; cases hx
    | cons y t ih =>
        intro a x hx
        rcases List.mem_cons.mp hx with h1 | h1
        · subst h1
          exact Nat.le_trans (Nat.le_max_right a x) (foldl_max_init_le t (max a x))
        · exact ih (max a y) x h1
  intro l x hx
  exact haux l 0 x hx

theorem mem_of_mem_dedupFirstAux :
    ∀ (l seen : List String) (c : String), c ∈ dedupFirstAux seen l → c ∈ l := by
  intro l
  induction l with
  | nil => intro seen c hc; cases hc
  | cons x t ih =>
      intro seen c hc
      simp only [dedupFirstAux] at hc
      by_cases hx : seen.contains x
      · simp only [hx, if_pos] at hc
        exact List.mem_cons_of_mem _ (ih seen c hc)
      · simp only [hx, if_neg, Bool.false_eq_true, not_false_iff] at hc
        rcases List.mem_cons.mp hc with h1 | h1
        · exact h1 ▸ List.mem_cons_self _ _
        · exact List.mem_cons_of_mem _ (ih _ c h1)

theorem lookupAssoc_mem {α : Type} (k : String) :
    ∀ (l : List (String × α)) (v : α), lookupAssoc k l = some v → ∃ p ∈ l, p.2 = v := by
  intro l
  induction l with
  | nil => intro v hv; cases hv
  | cons p t ih =>
      intro v hv
      simp only [lookupAssoc] at hv
      by_cases hk : p.1 = k
      · simp only [hk, if_pos] at hv
        exact ⟨p, List.mem_cons_self _ _, Option.some.inj hv⟩
      · simp only [hk, if_neg, not_false_iff] at hv
        rcases ih v hv with ⟨q, hq, h2⟩
        exact ⟨q, List.mem_cons_of_mem _ hq, h2⟩

theorem innerRows_keys :
    ∀ (data : RawJson) (rkv : List (String × List (String × Json))),
      innerRows data = .ok rkv → rkv.map (fun r => r.1) = data.map (fun p => p.1) := by
  intro data
  induction data with
  | nil =>
      intro rkv h
      simp only [innerRows] at h
      cases h
      rfl
  | cons p t ih =>
      intro rkv h
      obtain ⟨k, j⟩ := p
      cases j <;> simp only [innerRows] at h <;> try cases h
      rcases (exceptMap_ok _ _ _).mp h with ⟨l, hl, hrkv⟩
      subst hrkv
      simp [ih l hl]

theorem innerRows_mem :
    ∀ (data : RawJson) (rkv : List (String × List (String × Json))),
      innerRows data = .ok rkv →
        ∀ r ∈ rkv, ∃ p ∈ data, p.1 = r.1 ∧ p.2 = Json.obj r.2 := by
  intro data
  induction data with
  | nil =>
      intro rkv h
      simp only [innerRows] at h
      cases h
      intro r hr; cases hr
  | cons p t ih =>
      intro rkv h
      obtain ⟨k, j⟩ := p
      cases j <;> simp only [innerRows] at h <;> try cases h
      rcases (exceptMap_ok _ _ _).mp h with ⟨l, hl, hrkv⟩
      subst hrkv
      intro r hr
      rcases List.mem_cons.mp hr with h1 | h1
      · subst h1
        exact ⟨(k, Json.obj _), List.mem_cons_self _ _, rfl, rfl⟩
      · rcases ih l hl r h1 with ⟨q, hq, h2, h3⟩
        exact ⟨q, List.mem_cons_of_mem _ hq, h2, h3⟩

theorem innerRows_ok_of :
    ∀ (data : RawJson), (∀ p ∈ data, ∃ kvs, p.2 = Json.obj kvs) →
      ∃ rkv, innerRows data = .ok rkv := by
  intro data
  induction data with
  | nil => intro h; exact ⟨[], rfl⟩
  | cons p t ih =>
      intro h
      obtain ⟨k, j⟩ := p
      rcases h (k, j) (List.mem_cons_self _ _) with ⟨kvs, hj⟩
      cases hj
      rcases ih (fun q hq => h q (List.mem_cons_of_mem _ hq)) with ⟨l, hl⟩
      exact ⟨(k, kvs) :: l, by simp [innerRows, hl, Except.map]⟩

theorem numCells_len :
    ∀ (cs : List (Option Json)) (l : List (Option ℚ)),
      numCells cs = .ok l → l.length = cs.length := by
  intro cs
  induction cs with
  | nil =>
      intro l h
      simp only [numCells] at h
      cases h
      rfl
  | cons c t ih =>
      intro l h
      simp only [numCells] at h
      cases hc : numCell c with
      | error e => rw [hc] at h; cases h
      | ok q =>
          rw [hc] at h
          rcases (exceptMap_ok _ _ _).mp h with ⟨l2, hl2, hl⟩
          subst hl
          simp [ih l2 hl2]

theorem numCell_ok_of_good :
    ∀ (c : Option Json), goodCell c = true → ∃ q, numCell c = .ok q := by
  intro c hc
  match c with
  | none => exact ⟨none, rfl⟩
  | some (Json.str s) =>
      simp only [goodCell, Option.isSome_iff_exists] at hc
      rcases hc with ⟨q, hq⟩
      exact ⟨some q, by simp [numCell, hq]⟩
  | some (Json.num q) => exact ⟨some q, rfl⟩
  | some Json.null => exact ⟨none, rfl⟩
  | some (Json.bool b) => exact ⟨some (if b then 1 else 0), rfl⟩
  | some (Json.obj _) => cases hc
  | some (Json.arr _) => cases hc

theorem numCells_ok_of :
    ∀ (cs : List (Option Json)), (∀ c ∈ cs, goodCell c = true) →
      ∃ l, numCells cs = .ok l := by
  intro cs
  induction cs with
  | nil => intro h; exact ⟨[], rfl⟩
  | cons c t ih =>
      intro h
      rcases numCell_ok_of_good c (h c (List.mem_cons_self _ _)) with ⟨q, hq⟩
      rcases ih (fun x hx => h x (List.mem_cons_of_mem _ hx)) with ⟨l, hl⟩
      exact ⟨q :: l, by simp [numCells, hq, hl, Except.map]⟩

theorem numRows_forall2 :
    ∀ (rs : List (String × List (Option Json))) (l : List (String × List (Option ℚ))),
      numRows rs = .ok l →
        List.Forall₂ (fun a b => a.1 = b.1 ∧ numCells a.2 = .ok b.2) rs l := by
  intro rs
  induction rs with
  | nil =>
      intro l h
      simp only [numRows] at h
      cases h
      exact List.Forall₂.nil
  | cons r t ih =>
      intro l h
      simp only [numRows] at h
      cases hc : numCells r.2 with
      | error e => rw [hc] at h; cases h
      | ok cells =>
          rw [hc] at h
          rcases (exceptMap_ok _ _ _).mp h with ⟨l2, hl2, hl⟩
          subst hl
          exact List.Forall₂.cons ⟨rfl, hc⟩ (ih l2 hl2)

theorem numRows_ok_of :
    ∀ (rs : List (String × List (Option Json))),
      (∀ r ∈ rs, ∀ c ∈ r.2, goodCell c = true) → ∃ l, numRows rs = .ok l := by
  intro rs
  induction rs with
  | nil => intro h; exact ⟨[], rfl⟩
  | cons r t ih =>
      intro h
      rcases numCells_ok_of r.2 (h r (List.mem_cons_self _ _)) with ⟨cells, hc⟩
      rcases ih (fun x hx => h x (List.mem_cons_of_mem _ hx)) with ⟨l, hl⟩
      exact ⟨(r.1, cells) :: l, by simp [numRows, hc, hl, Except.map]⟩

theorem dateRows_forall2 :
    ∀ (rs : List (String × List (Option ℚ))) (l : List (Nat × List (Option ℚ))),
      dateRows rs = .ok l →
        List.Forall₂ (fun a b => parseDate a.1 = some b.1 ∧ a.2 = b.2) rs l := by
  intro rs
  induction rs with
  | nil =>
      intro l h
      simp only [dateRows] at h
      cases h
      exact List.Forall₂.nil
  | cons r t ih =>
      intro l h
      simp only [dateRows] at h
      cases hd : parseDate r.1 with
      | none => rw [hd] at h; cases h
      | some d =>
          rw [hd] at h
          rcases (exceptMap_ok _ _ _).mp h with ⟨l2, hl2, hl⟩
          subst hl
          exact List.Forall₂.cons ⟨hd, rfl⟩ (ih l2 hl2)

theorem dateRows_ok_of :
    ∀ (rs : List (String × List (Option ℚ))),
      (∀ r ∈ rs, (parseDate r.1).isSome = true) → ∃ l, dateRows rs = .ok l := by
  intro rs
  induction rs with
  | nil => intro h; exact ⟨[], rfl⟩
  | cons r t ih =>
      intro h
      rcases Option.isSome_iff_exists.mp (h r (List.mem_cons_self _ _)) with ⟨d, hd⟩
      rcases ih (fun x hx => h x (List.mem_cons_of_mem _ hx)) with ⟨l, hl⟩
      exact ⟨(d, r.2) :: l, by simp [dateRows, hd, hl, Except.map]⟩

theorem normalizeTable_ok_elim (data : RawJson) (t : NumTable)
    (h : normalizeTable data = .ok t) :
    ∃ rkv nrows drows,
      innerRows data = .ok rkv
      ∧ numRows (srowsFrom rkv) = .ok nrows
      ∧ dateRows nrows = .ok drows
      ∧ t.cols = (rawColsFrom rkv).map renameMap
      ∧ t.rows = List.insertionSort (fun a b => a.1 ≤ b.1) drows := by
  simp only [normalizeTable] at h
  split at h
  · cases h
  · rename_i rkv h1
    split at h
    · cases h
    · rename_i nrows h2
      split at h
      · cases h
      · rename_i drows h3
        cases h
        exact ⟨rkv, nrows, drows, h1, h2, h3, rfl, rfl⟩

/-! Claim theorems. -/

/-- C1 (amended): in the fetch step, a transport failure (connection error,
timeout, undecodable body) or an HTTP status in 400-599 yields the 503
`HTTPException` with a provider-error detail; a response below the 400-599
band whose JSON object body lacks the `"Time Series (Daily)"` key yields
the 404 `HTTPException` with the ticker detail; a present key yields the
extracted value; and the only other exit is an uncaught TypeError on a
non-object JSON body.  (The claim's `non-2xx status implies 503` fails for
1xx/3xx statuses, and a non-object body escapes the two `HTTPException`
exits; see the counterexample.) -/
theorem c1_fetch_error_classification :
    (∀ tk txt, fetchStep tk (ProviderResult.connError txt)
        = FetchOutcome.httpError 503 (providerDetail txt))
    ∧ (∀ tk s body, raiseForStatusRaises s = true →
        fetchStep tk (ProviderResult.response s body)
          = FetchOutcome.httpError 503 (providerDetail (statusErrText s)))
    ∧ (∀ tk s, raiseForStatusRaises s = false →
        fetchStep tk (ProviderResult.response s none)
          = FetchOutcome.httpError 503 (providerDetail jsonDecodeErrText))
    ∧ (∀ tk s fields, raiseForStatusRaises s = false →
        lookupAssoc tsKey fields = none →
          fetchStep tk (ProviderResult.response s (some (Json.obj fields)))
            = FetchOutcome.httpError 404 (notFoundDetail tk))
    ∧ (∀ tk s fields v, raiseForStatusRaises s = false →
        lookupAssoc tsKey fields = some v →
          fetchStep tk (ProviderResult.response s (some (Json.obj fields)))
            = FetchOutcome.fetchOk v)
    ∧ (∀ tk pr, (∃ d, fetchStep tk pr = FetchOutcome.httpError 503 d)
        ∨ (∃ d, fetchStep tk pr = FetchOutcome.httpError 404 d)
        ∨ (∃ v, fetchStep tk pr = FetchOutcome.fetchOk v)
        ∨ fetchStep tk pr = FetchOutcome.pythonError PyErr.typeError) := by
  refine ⟨fun tk txt => rfl, ?_, ?_, ?_, ?_, ?_⟩
  · intro tk s body h; simp [fetchStep, h]
  · intro tk s h; simp [fetchStep, h]
  · intro tk s fields h1 h2; simp [fetchStep, h1, h2]
  · intro tk s fields v h1 h2; simp [fetchStep, h1, h2]
  · intro tk pr
    cases pr with
    | connError txt => exact Or.inl ⟨_, rfl⟩
    | response s body =>
        by_cases h : raiseForStatusRaises s = true
        · exact Or.inl ⟨providerDetail (statusErrText s), by simp [fetchStep, h]⟩
        · rw [Bool.not_eq_true] at h
          cases body with
          | none => exact Or.inl ⟨providerDetail jsonDecodeErrText, by simp [fetchStep, h]⟩
          | some j =>
              cases j with
              | obj fields =>
                  cases h2 : lookupAssoc tsKey fields with
                  | some v =>
                      exact Or.inr (Or.inr (Or.inl ⟨v, by simp [fetchStep, h, h2]⟩))
                  | none =>
                      exact Or.inr (Or.inl ⟨notFoundDetail tk, by simp [fetchStep, h, h2]⟩)
              | arr es => exact Or.inr (Or.inr (Or.inr (by simp [fetchStep, h])))
              | str s2 => exact Or.inr (Or.inr (Or.inr (by simp [fetchStep, h])))
              | num q => exact Or.inr (Or.inr (Or.inr (by simp [fetchStep, h])))
              | bool b => exact Or.inr (Or.inr (Or.inr (by simp [fetchStep, h])))
              | null => exact Or.inr (Or.inr (Or.inr (by simp [fetchStep, h])))

/-- C1 counterexample: a 304 response (non-2xx, yet outside the 400-599
band `raise_for_status` raises on) whose body lacks the time-series key is
answered with 404, not with the claimed 503; and a 200 response whose JSON
body is an array (so the key is absent) raises an uncaught TypeError
instead of the claimed 404, a third error exit. -/
theorem c1_counterexample :
    fetchStep "IBM" (ProviderResult.response 304 (some (Json.obj [])))
        = FetchOutcome.httpError 404 (notFoundDetail "IBM")
    ∧ fetchStep "IBM" (ProviderResult.response 200 (some (Json.arr [])))
        = FetchOutcome.pythonError PyErr.typeError :=
  ⟨rfl, rfl⟩

/-- C1 witness: the classification evaluated at concrete inputs. -/
theorem c1_fetch_error_classification_witness :
    fetchStep "IBM" (ProviderResult.response 500 none)
        = FetchOutcome.httpError 503 (providerDetail (statusErrText 500))
    ∧ fetchStep "IBM" (ProviderResult.response 200 (some (Json.obj [])))
        = FetchOutcome.httpError 404 (notFoundDetail "IBM")
    ∧ fetchStep "IBM" (ProviderResult.response 200
          (some (Json.obj [(tsKey, Json.null)])))
        = FetchOutcome.fetchOk Json.null
    ∧ fetchStep "IBM" (ProviderResult.response 200 none)
        = FetchOutcome.httpError 503 (providerDetail jsonDecodeErrText) :=
  ⟨c1_fetch_error_classification.2.1 "IBM" 500 none (by rfl),
   c1_fetch_error_classification.2.2.2.1 "IBM" 200 [] (by rfl) (by rfl),
   c1_fetch_error_classification.2.2.2.2.1 "IBM" 200 [(tsKey, Json.null)] Json.null
     (by rfl) (by rfl),
   c1_fetch_error_classification.2.2.1 "IBM" 200 (by rfl)⟩

/-- C2: `pandas_ta` is absent from the module's imports, so the `.ta`
accessor is unregistered: the indicator step raises AttributeError on every
table, the handler never returns the 200 success exit for any provider
outcome, and whenever the fetch and the normalization succeed the request
dies with exactly that uncaught AttributeError. -/
theorem c2_dead_success_path :
    (mainImports.contains "pandas_ta" = false)
    ∧ (∀ t : NumTable, indicatorStep mainImports t = .error PyErr.attributeError)
    ∧ (∀ pv ticker pr, isSuccess (analyzeTicker mainImports pv ticker pr) = false)
    ∧ (∀ pv data t, normalizeTable data = .ok t →
        processData mainImports pv data = .pythonError PyErr.attributeError) := by
  have hnmem : ¬ ("pandas_ta" ∈ mainImports) := by decide
  refine ⟨by decide, fun t => by simp [indicatorStep, hnmem], ?_, ?_⟩
  · intro pv ticker pr
    unfold analyzeTicker
    cases fetchStep ticker pr with
    | httpError c d => rfl
    | pythonError e => rfl
    | fetchOk j =>
        cases j with
        | obj fields =>
            show isSuccess (processData mainImports pv fields) = false
            unfold processData
            cases normalizeTable fields with
            | error e => rfl
            | ok t => simp [indicatorStep, hnmem, isSuccess]
        | arr es => rfl
        | str s2 => rfl
        | num q => rfl
        | bool b => rfl
        | null => rfl
  · intro pv data t h
    unfold processData
    rw [h]
    simp [indicatorStep, hnmem]

/-- C2 witness: on the spec's two-day payload the pipeline after a
successful fetch ends in the uncaught AttributeError. -/
theorem c2_dead_success_path_witness :
    processData mainImports pvZero scenarioPayload
      = .pythonError PyErr.attributeError :=
  c2_dead_success_path.2.2.2 pvZero scenarioPayload scenarioTable (by rfl)

/-- C3 (amended): the normalization step does not fail on a well-formed raw
mapping (object rows, ISO date keys, numeric-parsable values) — but, the
code using `pd.to_numeric` with its default `errors="raise"`, a non-numeric
string cell makes the step raise a ValueError that aborts the request
instead of propagating as a NaN cell; see the counterexample. -/
theorem c3_normalizer_total_on_wellformed (data : RawJson)
    (h : wellFormedPayload data = true) :
    exceptOk (normalizeTable data) = true := by
  simp only [wellFormedPayload, List.all_eq_true, Bool.and_eq_true] at h
  obtain ⟨rkv, hIr⟩ := innerRows_ok_of data (by
    intro p hp
    rcases h p hp with ⟨hd, hrow⟩
    cases hj : p.2 with
    | obj kvs => exact ⟨kvs, rfl⟩
    | arr es => rw [hj] at hrow; cases hrow
    | str s2 => rw [hj] at hrow; cases hrow
    | num q => rw [hj] at hrow; cases hrow
    | bool b => rw [hj] at hrow; cases hrow
    | null => rw [hj] at hrow; cases hrow)
  obtain ⟨nrows, hNr⟩ := numRows_ok_of (srowsFrom rkv) (by
    intro r hr c hc
    obtain ⟨x, hx, hxe⟩ := List.mem_map.mp hr
    subst hxe
    obtain ⟨c0, hc0, hce⟩ := List.mem_map.mp hc
    cases hl : lookupAssoc c0 x.2 with
    | none => rw [hl] at hce; rw [← hce]; rfl
    | some v =>
        rw [hl] at hce
        rw [← hce]
        obtain ⟨q, hq, hqv⟩ := lookupAssoc_mem c0 x.2 v hl
        obtain ⟨p, hp, hpk, hpo⟩ := innerRows_mem data rkv hIr x hx
        rcases h p hp with ⟨hd, hrow⟩
        rw [hpo] at hrow
        rw [List.all_eq_true] at hrow
        rw [← hqv]
        exact hrow q hq)
  obtain ⟨drows, hDr⟩ := dateRows_ok_of nrows (by
    intro r hr
    have hk2 : (srowsFrom rkv).map (fun r => r.1) = nrows.map (fun r => r.1) :=
      forall2_map_eq (fun a b hab => hab.1) (numRows_forall2 _ _ hNr)
    have hk1 : (srowsFrom rkv).map (fun r => r.1) = rkv.map (fun r => r.1) := by
      simp [srowsFrom, List.map_map]
    have hk3 : rkv.map (fun r => r.1) = data.map (fun p => p.1) :=
      innerRows_keys data rkv hIr
    have hmem : r.1 ∈ data.map (fun p => p.1) := by
      rw [← hk3, ← hk1, hk2]
      exact List.mem_map_of_mem _ hr
    obtain ⟨p, hp, hpe⟩ := List.mem_map.mp hmem
    rcases h p hp with ⟨hd, hrow⟩
    rw [← hpe]
    exact hd)
  simp only [normalizeTable, hIr, hNr, hDr]
  rfl

/-- C3 counterexample: a payload whose close cell is the string `"abc"`
makes the normalizer raise ValueError (aborting the request) instead of
producing a NaN cell. -/
theorem c3_counterexample :
    normalizeTable badCellPayload = .error PyErr.valueError := rfl

/-- C3 witness: the spec's two-day payload is well-formed and the
normalizer succeeds on it. -/
theorem c3_normalizer_total_on_wellformed_witness :
    exceptOk (normalizeTable scenarioPayload) = true :=
  c3_normalizer_total_on_wellformed scenarioPayload (by rfl)

/-- C4 (amended): the Response Assembler's `to_dict(orient="records")`
keeps every NaN cell as the float NaN value in its record (under its
column name, right after the `"index"` date entry); it does not serialize
NaN cells as an explicit null or absent marker.  (Starlette's JSON
rendering, with `allow_nan=False`, then rejects such a payload rather than
emitting a NaN token, so the claimed null-marker success bodies do not
exist.) -/
theorem c4_records_keep_nan (t : NumTable) (i j : Nat)
    (row : Nat × List (Option ℚ)) (c : String)
    (h1 : t.rows.get? i = some row) (h2 : row.2.get? j = some none)
    (h3 : t.cols.get? j = some c) :
    ((recordsOf t).get? i).bind (fun rec => rec.get? (j + 1))
      = some (c, JVal.jnan) := by
  have hrec : (recordsOf t).get? i = some (recordOfRow t.cols row) := by
    simp only [recordsOf]
    rw [List.get?_map, h1]
    rfl
  rw [hrec]
  show (recordOfRow t.cols row).get? (j + 1) = some (c, JVal.jnan)
  simp only [recordOfRow, List.get?_cons_succ]
  rw [List.zip, get?_zipWith_eq, h3, List.get?_map, h2]
  rfl

/-- C4 counterexample: a one-row table with an RSI warm-up NaN cell is
assembled into a record that carries the NaN value itself, and no null
marker appears anywhere in the record list. -/
theorem c4_counterexample :
    recordsOf warmupTable
        = [[("index", JVal.jdate 739192), ("close", JVal.jnum 11),
            ("RSI_14", JVal.jnan)]]
    ∧ ((recordsOf warmupTable).flatten.map (fun e => e.2)).contains JVal.jnull
        = false :=
  ⟨rfl, rfl⟩

/-- C4 witness: the NaN-keeping fact evaluated on the warm-up table. -/
theorem c4_records_keep_nan_witness :
    ((recordsOf warmupTable).get? 0).bind (fun rec => rec.get? 2)
      = some ("RSI_14", JVal.jnan) :=
  c4_records_keep_nan warmupTable 0 1 (739192, [some 11, none]) "RSI_14" rfl rfl rfl

/-- C5 (amended): the rename maps exactly the six provider labels to their
canonical names and leaves every other label unchanged, and the Normalized
Table's columns are the renamed images of all raw columns — so an
unexpected field is preserved under its original label, not dropped. -/
theorem c5_rename_keeps_extras :
    (renameMap "1. open" = "open") ∧ (renameMap "2. high" = "high")
    ∧ (renameMap "3. low" = "low") ∧ (renameMap "4. close" = "close")
    ∧ (renameMap "5. adjusted close" = "adj_close")
    ∧ (renameMap "6. volume" = "volume")
    ∧ (∀ c, c ∉ sixLabels → renameMap c = c)
    ∧ (∀ data t, normalizeTable data = .ok t →
        ∀ rkv, innerRows data = .ok rkv →
          t.cols = (rawColsFrom rkv).map renameMap) := by
  refine ⟨rfl, rfl, rfl, rfl, rfl, rfl, ?_, ?_⟩
  · intro c hc
    simp only [sixLabels, List.mem_cons, List.not_mem_nil, or_false, not_or] at hc
    obtain ⟨n1, n2, n3, n4, n5, n6⟩ := hc
    simp [renameMap, n1, n2, n3, n4, n5, n6]
  · intro data t h rkv hIr
    obtain ⟨rkv2, nrows, drows, hIr2, hNr, hDr, hCols, hRows⟩ :=
      normalizeTable_ok_elim data t h
    have : rkv = rkv2 := by
      have := hIr.symm.trans hIr2
      exact Except.ok.inj this
    rw [this]
    exact hCols

/-- C5 counterexample: a payload with a seventh field `"7. dividend"`
normalizes to a table whose columns keep that field, so the columns are
not exactly the six canonical names. -/
theorem c5_counterexample :
    (normalizeTable extraFieldPayload).map (fun t => t.cols)
        = .ok ["open", "high", "low", "close", "adj_close", "volume", "7. dividend"]
    ∧ (["open", "high", "low", "close", "adj_close", "volume", "7. dividend"]
        : List String)
        ≠ ["open", "high", "low", "close", "adj_close", "volume"] :=
  ⟨rfl, by decide⟩

/-- C5 witness: the identity half applied to a label outside the six. -/
theorem c5_rename_keeps_extras_witness :
    renameMap "7. dividend" = "7. dividend" :=
  c5_rename_keeps_extras.2.2.2.2.2.2.1 "7. dividend" (by decide)

/-- C6: on a payload whose parsed dates are pairwise distinct, a successful
normalization yields a strictly ascending date index that is a permutation
of exactly the payload's dates — one row per date, none added or removed. -/
theorem c6_index_sorted_and_exact (data : RawJson) (t : NumTable)
    (h1 : normalizeTable data = .ok t)
    (h2 : (data.filterMap (fun p => parseDate p.1)).Nodup) :
    (t.rows.map (fun r => r.1)).Pairwise (fun a b => a < b)
    ∧ (t.rows.map (fun r => r.1)).Perm
        (data.filterMap (fun p => parseDate p.1)) := by
  obtain ⟨rkv, nrows, drows, hIr, hNr, hDr, hCols, hRows⟩ :=
    normalizeTable_ok_elim data t h1
  have hk1 : (srowsFrom rkv).map (fun r => r.1) = rkv.map (fun r => r.1) := by
    simp [srowsFrom, List.map_map]
  have hk2 : (srowsFrom rkv).map (fun r => r.1) = nrows.map (fun r => r.1) :=
    forall2_map_eq (fun a b hab => hab.1) (numRows_forall2 _ _ hNr)
  have hk3 : rkv.map (fun r => r.1) = data.map (fun p => p.1) :=
    innerRows_keys data rkv hIr
  have hk4 : nrows.map (fun a => parseDate a.1) = drows.map (fun b => some b.1) :=
    forall2_map_eq (fun a b hab => hab.1) (dateRows_forall2 _ _ hDr)
  have hk5 : data.map (fun p => parseDate p.1) = drows.map (fun b => some b.1) := by
    have e1 : data.map (fun p => parseDate p.1)
        = (data.map (fun p => p.1)).map parseDate := by
      simp [List.map_map]
    have e2 : (nrows.map (fun r => r.1)).map parseDate
        = nrows.map (fun a => parseDate a.1) := by
      simp [List.map_map]
    rw [e1, ← hk3, ← hk1, hk2, e2, hk4]
  have hfm : data.filterMap (fun p => parseDate p.1) = drows.map (fun b => b.1) := by
    apply filterMap_eq_of_map_some
    rw [hk5]
    simp [List.map_map]
  have hperm0 : t.rows.Perm drows := by
    rw [hRows]
    exact List.perm_insertionSort _ _
  have hperm : (t.rows.map (fun r => r.1)).Perm
      (data.filterMap (fun p => parseDate p.1)) := by
    rw [hfm]
    exact hperm0.map _
  refine ⟨?_, hperm⟩
  have hsorted : List.Sorted (fun a b => a.1 ≤ b.1) t.rows := by
    rw [hRows]
    exact List.sorted_insertionSort _ _
  have hle : (t.rows.map (fun r => r.1)).Pairwise (fun a b => a ≤ b) :=
    (List.pairwise_map).mpr hsorted
  have hnd : (t.rows.map (fun r => r.1)).Nodup := (hperm.nodup_iff).mpr h2
  exact pairwise_lt_of_le_of_nodup hle hnd

/-- C6 witness: the two-day scenario payload normalizes to the index
`[739192, 739193]`, strictly ascending and a permutation of its parsed
dates. -/
theorem c6_index_sorted_and_exact_witness :
    (([739192, 739193] : List Nat).Pairwise (fun a b => a < b))
    ∧ (([739192, 739193] : List Nat).Perm
        (scenarioPayload.filterMap (fun p => parseDate p.1))) := by
  have h := c6_index_sorted_and_exact scenarioPayload scenarioTable
    (by rfl) (by decide)
  simpa [scenarioTable] using h

/-- C7 (code bug): the comment above `main.py` lines 64-65 documents that
the calls add RSI and MACD columns to the frame, but `pandas_ta` is never
imported, so on any normalized table — here the spec's two-day table — the
step raises AttributeError instead of producing the Augmented Table. -/
theorem c7_indicator_step_attribute_error :
    indicatorStep mainImports scenarioTable = .error PyErr.attributeError := rfl

/-- C8: Prophet's future frame covers every historical date and extends it
by exactly the 90 consecutive calendar days after the last historical
date — past that date, a day number belongs to the forecast index exactly
when it is at most `last + 90`, so the 90-day extension is gapless. -/
theorem c8_forecast_dates_range (histDs : List Nat) :
    (∀ d, d ∈ histDs → d ∈ makeFutureDates histDs 90)
    ∧ (∀ d, lastDate histDs < d →
        (d ∈ makeFutureDates histDs 90 ↔ d ≤ lastDate histDs + 90)) := by
  constructor
  · intro d hd
    simp only [makeFutureDates]
    apply List.mem_append_left
    rw [List.mem_dedup]
    exact ((List.perm_insertionSort (fun a b => a ≤ b) histDs).mem_iff).mpr hd
  · intro d hlast
    constructor
    · intro hmem
      simp only [makeFutureDates] at hmem
      rcases List.mem_append.mp hmem with hm | hm
      · exfalso
        have hd : d ∈ histDs :=
          ((List.perm_insertionSort (fun a b => a ≤ b) histDs).mem_iff).mp
            (List.mem_dedup.mp hm)
        exact absurd (le_lastDate histDs d hd) (Nat.not_le_of_lt hlast)
      · rcases List.mem_map.mp hm with ⟨i, hi, hde⟩
        have := List.mem_range.mp hi
        omega
    · intro hle
      simp only [makeFutureDates]
      apply List.mem_append_right
      exact List.mem_map.mpr
        ⟨d - lastDate histDs - 1, List.mem_range.mpr (by omega), by omega⟩

/-- C8 witness: with history `[100, 101, 103]` the date 101 is covered and
the day 150 lies in the 90-day extension past the last date 103. -/
theorem c8_forecast_dates_range_witness :
    (101 ∈ makeFutureDates [100, 101, 103] 90)
    ∧ (150 ∈ makeFutureDates [100, 101, 103] 90) :=
  ⟨(c8_forecast_dates_range [100, 101, 103]).1 101 (by decide),
   ((c8_forecast_dates_range [100, 101, 103]).2 150 (by decide)).mpr (by decide)⟩

theorem emaRec_const (a c : ℚ) :
    ∀ m, emaRec a c (List.replicate m c) = List.replicate m c := by
  have hc : a * c + (1 - a) * c = c := by ring
  intro m
  induction m with
  | zero => rfl
  | succ k ih => simp only [List.replicate_succ, emaRec, hc, ih]

theorem sma_replicate (m : Nat) (c : ℚ) (hm : m ≠ 0) :
    sma (List.replicate m c) = c := by
  have hm2 : (m : ℚ) ≠ 0 := Nat.cast_ne_zero.mpr hm
  simp only [sma, List.sum_replicate, List.length_replicate, nsmul_eq_mul]
  rw [mul_comm, mul_div_assoc, div_self hm2, mul_one]

theorem ema_replicate (n m : Nat) (c : ℚ) (h1 : n ≠ 0) (h2 : n ≤ m) :
    ema n (List.replicate m c)
      = List.replicate (n - 1) (none : Option ℚ)
          ++ some c :: List.replicate (m - n) (some c) := by
  have hcond : ¬((List.replicate m c).length < n ∨ n = 0) := by
    rw [List.length_replicate]
    exact not_or.mpr ⟨Nat.not_lt.mpr h2, h1⟩
  rw [ema, if_neg hcond, List.take_replicate, Nat.min_eq_left h2,
    List.drop_replicate, sma_replicate n c h1, emaRec_const, List.map_replicate]

theorem macdLine_constClose :
    macdLine constClose
      = List.replicate 25 (none : Option ℚ)
          ++ some 0 :: List.replicate 8 (some (0 : ℚ)) := by
  have e12 : ema 12 constClose
      = List.replicate 11 (none : Option ℚ)
          ++ some 10 :: List.replicate 22 (some (10 : ℚ)) := by
    simpa [constClose] using ema_replicate 12 34 10 (by norm_num) (by norm_num)
  have e26 : ema 26 constClose
      = List.replicate 25 (none : Option ℚ)
          ++ some 10 :: List.replicate 8 (some (10 : ℚ)) := by
    simpa [constClose] using ema_replicate 26 34 10 (by norm_num) (by norm_num)
  rw [macdLine, e12, e26]
  simp [optSub]

theorem macdSignalFull_constClose :
    macdSignalFull constClose
      = List.replicate 33 (none : Option ℚ) ++ [some (0 : ℚ)] := by
  have e9 : ema 9 ([0, 0, 0, 0, 0, 0, 0, 0, 0] : List ℚ)
      = [none, none, none, none, none, none, none, none, some (0 : ℚ)] := by
    simpa using ema_replicate 9 9 0 (by norm_num) (by norm_num)
  simp only [macdSignalFull, macdLine_constClose]
  simp [leadingNones, List.reduceOption, e9]

/-- C9: in the MACD triple appended by the indicator step, the histogram
column is the line minus the signal at every index where both are
defined. -/
theorem c9_macd_histogram (cl : List ℚ) (i : Nat) (a b : ℚ)
    (h1 : (macdLine cl).get? i = some (some a))
    (h2 : (macdSignalFull cl).get? i = some (some b)) :
    (macdHist cl).get? i = some (some (a - b)) := by
  simp only [macdHist]
  rw [get?_zipWith_eq, h1, h2]
  rfl

/-- C9 witness: on a constant 34-day close series, at index 33 the line
and the signal are both 0 and the histogram is their difference. -/
theorem c9_macd_histogram_witness :
    (macdHist constClose).get? 33 = some (some (0 : ℚ)) := by
  have h := c9_macd_histogram constClose 33 0 0
    (by rw [macdLine_constClose]; rfl)
    (by rw [macdSignalFull_constClose]; rfl)
  simpa using h

theorem normalizeTable_row_lengths (data : RawJson) (t : NumTable)
    (h : normalizeTable data = .ok t) :
    ∀ r ∈ t.rows, r.2.length = t.cols.length := by
  obtain ⟨rkv, nrows, drows, hIr, hNr, hDr, hCols, hRows⟩ :=
    normalizeTable_ok_elim data t h
  intro r hr
  rw [hRows] at hr
  have hr2 : r ∈ drows :=
    ((List.perm_insertionSort (fun a b => a.1 ≤ b.1) drows).mem_iff).mp hr
  obtain ⟨rn, hrn, hR⟩ := forall2_mem_right (dateRows_forall2 _ _ hDr) r hr2
  obtain ⟨rs, hrs, hRs⟩ := forall2_mem_right (numRows_forall2 _ _ hNr) rn hrn
  have hlen2 : rn.2.length = rs.2.length := numCells_len _ _ hRs.2
  obtain ⟨x, hx, hxe⟩ := List.mem_map.mp hrs
  have hlen3 : rs.2.length = (rawColsFrom rkv).length := by
    rw [← hxe]
    simp
  rw [hCols, List.length_map, ← hR.2, hlen2, hlen3]

theorem augment_row_lengths (data : RawJson) (t : NumTable)
    (h : normalizeTable data = .ok t) :
    ∀ r ∈ (augmentIndicators t).rows,
      r.2.length = (augmentIndicators t).cols.length := by
  intro r hr
  simp only [augmentIndicators] at hr
  rw [List.mapIdx_eq_enum_map] at hr
  obtain ⟨p, hp, hpe⟩ := List.mem_map.mp hr
  have hmem : p.2 ∈ t.rows := List.get?_mem (List.mem_enum_iff_get?.mp hp)
  have hbase := normalizeTable_row_lengths data t h p.2 hmem
  rw [← hpe]
  obtain ⟨i, row⟩ := p
  simp [Function.uncurry, hbase, augmentIndicators, indicatorCols]

theorem rawCols_in_sixLabels (data : RawJson)
    (rkv : List (String × List (String × Json)))
    (hIr : innerRows data = .ok rkv) (h2 : providerLabelsOnly data = true) :
    ∀ c ∈ rawColsFrom rkv, c ∈ sixLabels := by
  intro c hc
  have hc2 : c ∈ (rkv.map (fun r => r.2.map (fun q => q.1))).flatten :=
    mem_of_mem_dedupFirstAux _ _ c hc
  obtain ⟨lab, hlab, hcl⟩ := List.mem_flatten.mp hc2
  obtain ⟨x, hx, hxe⟩ := List.mem_map.mp hlab
  obtain ⟨p, hp, hpk, hpo⟩ := innerRows_mem data rkv hIr x hx
  simp only [providerLabelsOnly, List.all_eq_true] at h2
  have hall := h2 p hp
  rw [hpo] at hall
  rw [List.all_eq_true] at hall
  rw [← hxe] at hcl
  obtain ⟨q, hq, hqe⟩ := List.mem_map.mp hcl
  have h6 : sixLabels.contains q.1 = true := hall q hq
  rw [hqe] at h6
  exact List.mem_of_elem_eq_true h6

/-- C10: for a provider-shaped payload, every historical record of the
response carries its date first under the key `"index"` (the unnamed
DataFrame index reset into a column), its remaining keys are exactly the
augmented columns; every forecast record carries its date under `"ds"`
followed by the three forecast value keys; and no key named `"date"`
occurs in either record list. -/
theorem c10_record_key_names (data : RawJson) (t : NumTable)
    (h1 : normalizeTable data = .ok t) (h2 : providerLabelsOnly data = true) :
    ((recordsOf (augmentIndicators t)).map (fun rec => rec.map (fun e => e.1))
        = (augmentIndicators t).rows.map
            (fun _ => "index" :: (augmentIndicators t).cols))
    ∧ ((recordsOf (augmentIndicators t)).map List.head?
        = (augmentIndicators t).rows.map
            (fun r => some ("index", JVal.jdate r.1)))
    ∧ ("date" ∉ "index" :: (augmentIndicators t).cols)
    ∧ (∀ frs : List ForecastRow,
        (forecastRecords frs).map (fun rec => rec.map (fun e => e.1))
          = frs.map (fun _ => ["ds", "yhat", "yhat_lower", "yhat_upper"]))
    ∧ ("date" ∉ (["ds", "yhat", "yhat_lower", "yhat_upper"] : List String)) := by
  obtain ⟨rkv, nrows, drows, hIr, hNr, hDr, hCols, hRows⟩ :=
    normalizeTable_ok_elim data t h1
  have hlens := augment_row_lengths data t h1
  refine ⟨?_, ?_, ?_, ?_, by decide⟩
  · simp only [recordsOf, List.map_map]
    apply List.map_congr_left
    intro r hr
    have hlen := hlens r hr
    simp only [Function.comp_apply, recordOfRow, List.map_cons, List.cons.injEq, true_and]
    have hlen2 : (augmentIndicators t).cols.length ≤ (r.2.map cellToJVal).length := by
      rw [List.length_map, hlen]
    show (List.zip _ _).map Prod.fst = _
    exact List.map_fst_zip _ _ hlen2
  · simp only [recordsOf, List.map_map]
    apply List.map_congr_left
    intro r hr
    rfl
  · intro hmem
    rcases List.mem_cons.mp hmem with hcase | hcase
    · exact absurd hcase (by decide)
    · have : (augmentIndicators t).cols = t.cols ++ indicatorCols := rfl
      rw [this] at hcase
      rcases List.mem_append.mp hcase with hcase | hcase
      · rw [hCols] at hcase
        obtain ⟨c, hc, hce⟩ := List.mem_map.mp hcase
        have hsix := rawCols_in_sixLabels data rkv hIr h2 c hc
        revert hce
        fin_cases hsix <;> decide
      · revert hcase
        decide
  · intro frs
    simp only [forecastRecords, List.map_map]
    apply List.map_congr_left
    intro fr hfr
    rfl

/-- C10 witness: on the scenario table no record key is `"date"`. -/
theorem c10_record_key_names_witness :
    "date" ∉ "index" :: (augmentIndicators scenarioTable).cols :=
  (c10_record_key_names scenarioPayload scenarioTable (by rfl) (by rfl)).2.2.1
